import Mathlib

/-!
Shallow embedding of the `cgfs` renderer (src/src/components.rs, src/src/objects.rs,
src/src/lib.rs) and verification of the frozen claims about it.

Modelling conventions:
* `f64`/`f32` scalars of the ray-tracing path are modelled as `ℝ` (the code's
  square roots force real numbers); the rasterizer / linear-solver path uses only
  field operations and comparisons, so it is modelled over `ℚ`, which keeps those
  definitions computable and the concrete evaluations decidable.
* Rust's `-f64::INFINITY` / `f64::INFINITY` interval endpoints are modelled with
  `EReal` endpoints (`⊥` / `⊤`), coercing real parameters into `EReal` for the
  comparisons, which matches IEEE comparison behaviour on infinities.
* `Option`-returning Rust functions become `Option`-returning Lean functions;
  a Rust `assert!` abort is modelled as an `Option.none` result.
-/

namespace CGFS

/-- Model of `HomogeneousCoordinate(f64, f64, f64, f64)` from components.rs. -/
@[ext]
structure Vec4 where
  x : ℝ
  y : ℝ
  z : ℝ
  w : ℝ

namespace Vec4

/-- `HomogeneousCoordinate::dot`. -/
def dot (a b : Vec4) : ℝ := a.x * b.x + a.y * b.y + a.z * b.z + a.w * b.w

/-- `impl Add for HomogeneousCoordinate`. -/
noncomputable instance : Add Vec4 := ⟨fun a b => ⟨a.x + b.x, a.y + b.y, a.z + b.z, a.w + b.w⟩⟩

/-- `impl Sub for HomogeneousCoordinate`. -/
noncomputable instance : Sub Vec4 := ⟨fun a b => ⟨a.x - b.x, a.y - b.y, a.z - b.z, a.w - b.w⟩⟩

/-- `impl Neg for HomogeneousCoordinate`. -/
noncomputable instance : Neg Vec4 := ⟨fun a => ⟨-a.x, -a.y, -a.z, -a.w⟩⟩

/-- `impl Mul<f64> for HomogeneousCoordinate`. -/
noncomputable instance : HMul Vec4 ℝ Vec4 := ⟨fun a s => ⟨a.x * s, a.y * s, a.z * s, a.w * s⟩⟩

/-- `impl Div<f64> for HomogeneousCoordinate` (defined in the source as `self * (1./rhs)`). -/
noncomputable instance : HDiv Vec4 ℝ Vec4 := ⟨fun a s => a * (1 / s)⟩

/-- `HomogeneousCoordinate::length`. -/
noncomputable def length (a : Vec4) : ℝ := Real.sqrt (dot a a)

/-- `HomogeneousCoordinate::cos`. -/
noncomputable def cos (a b : Vec4) : ℝ := dot a b / (length a * length b)

/-- `HomogeneousCoordinate::reflect`: `*self * self.dot(rhs) * 2. - *rhs`. -/
noncomputable def reflect (a rhs : Vec4) : Vec4 := a * dot a rhs * (2 : ℝ) - rhs

end Vec4

/-- Model of `Color` (f32 components modelled over a scalar field `K`:
the ray tracer uses `Color ℝ`, the canvas path `Color ℚ`). -/
structure Color (K : Type) where
  r : K
  g : K
  b : K
deriving DecidableEq

/-- `impl Add<Color> for Color`. -/
instance {K : Type} [Add K] : Add (Color K) :=
  ⟨fun a b => ⟨a.r + b.r, a.g + b.g, a.b + b.b⟩⟩

/-- `impl Mul<f64> for Color`. -/
instance {K : Type} [Mul K] : HMul (Color K) K (Color K) :=
  ⟨fun c s => ⟨c.r * s, c.g * s, c.b * s⟩⟩

/-- `struct Ray` from components.rs. -/
structure Ray where
  origin : Vec4
  direction : Vec4

/-- The point `origin + direction * t` reached by a ray at parameter `t`
(the expression the source uses at every hit: `ray.origin + ray.direction * t`). -/
noncomputable def Ray.at (ray : Ray) (t : ℝ) : Vec4 := ray.origin + ray.direction * t

/-- `struct Sphere` from components.rs. -/
structure Sphere where
  center : Vec4
  radius : ℝ

/-- `Sphere::compute_ray_intersection` from components.rs (lines 374-387). -/
noncomputable def Sphere.compute_ray_intersection (s : Sphere) (ray : Ray) :
    Option (ℝ × ℝ) :=
  let co : Vec4 := ray.origin - s.center
  let a := ray.direction.dot ray.direction
  let b := 2 * co.dot ray.direction
  let c := co.dot co - s.radius * s.radius
  let discriminant := b * b - 4 * a * c
  if discriminant < 0 then none
  else
    let t1 := (-b - Real.sqrt discriminant) / (2 * a)
    let t2 := (-b + Real.sqrt discriminant) / (2 * a)
    some (t1, t2)

/-- The sphere's implicit surface equation at a point (`|p − C|² = r²`,
with the squared length written through `dot` exactly as the code computes it). -/
def Sphere.onSurface (s : Sphere) (p : Vec4) : Prop :=
  (p - s.center).dot (p - s.center) = s.radius * s.radius

/-- The local `b` of `Sphere::compute_ray_intersection`: `2.0 * co.dot(&ray.direction)`. -/
noncomputable def Sphere.quadB (s : Sphere) (ray : Ray) : ℝ :=
  2 * (ray.origin - s.center).dot ray.direction

/-- The local `c` of `Sphere::compute_ray_intersection`:
`co.dot(&co) - self.radius * self.radius`. -/
noncomputable def Sphere.quadC (s : Sphere) (ray : Ray) : ℝ :=
  (ray.origin - s.center).dot (ray.origin - s.center) - s.radius * s.radius

/-- The local `discriminant` of `Sphere::compute_ray_intersection`. -/
noncomputable def Sphere.discriminant (s : Sphere) (ray : Ray) : ℝ :=
  s.quadB ray * s.quadB ray - 4 * ray.direction.dot ray.direction * s.quadC ray


/-- 3×3 matrix over `K`, row index then column index (models `[[f64; 3]; 3]`). -/
abbrev Mat3 (K : Type) := Fin 3 → Fin 3 → K

/-- Length-3 vector over `K` (models `[f64; 3]`). -/
abbrev Vec3 (K : Type) := Fin 3 → K

variable {K : Type} [Field K] [DecidableEq K]

/-- Row swap of the coefficient matrix in `solve_equations`. -/
def swapRows (i j : Fin 3) (m : Mat3 K) : Mat3 K :=
  fun r => if r = i then m j else if r = j then m i else m r

/-- Corresponding swap of the right-hand side entries in `solve_equations`. -/
def swapEntries (i j : Fin 3) (v : Vec3 K) : Vec3 K :=
  fun r => if r = i then v j else if r = j then v i else v r

/-- The pivot search of `solve_equations` (components.rs lines 407-419):
`for j in (i+1)..3 { if coefficients[j][i] != 0. { ...swap rows i,j... } break; }`.
The `break` in the source is unconditional (outside the `if`), so only the first
candidate row is ever examined; the `match` below reproduces exactly that. -/
def pivotSwap (i : Fin 3) (st : Mat3 K × Vec3 K) : Mat3 K × Vec3 K :=
  match (List.finRange 3).filter (fun j => i < j) with
  | [] => st
  | j :: _ => if st.1 j i ≠ 0 then (swapRows i j st.1, swapEntries i j st.2) else st

/-- One iteration of the outer `for i in 0..3` loop of `solve_equations`:
pivot swap when the diagonal entry is zero, singularity check, normalization of
row `i` (columns ≥ i and the rhs), and elimination of column `i` from every
other row (columns ≥ i, with the factor `c = coefficients[j][i]` captured before
the row update, as in the source). -/
def gaussJordanStep (i : Fin 3) (st : Mat3 K × Vec3 K) : Option (Mat3 K × Vec3 K) :=
  let st := if st.1 i i = 0 then pivotSwap i st else st
  if st.1 i i = 0 then none
  else
    let c := st.1 i i
    let m1 : Mat3 K := fun r k => if r = i ∧ i ≤ k then st.1 r k / c else st.1 r k
    let v1 : Vec3 K := fun r => if r = i then st.2 r / c else st.2 r
    let m2 : Mat3 K := fun r k => if r ≠ i ∧ i ≤ k then m1 r k - m1 r i * m1 i k else m1 r k
    let v2 : Vec3 K := fun r => if r ≠ i then v1 r - m1 r i * v1 i else v1 r
    some (m2, v2)

/-- `solve_equations` from components.rs (lines 405-445): Gauss-Jordan elimination
with the (broken-`break`) partial pivoting of the source, followed by the final
`coefficients[i][i] != 1.` check. -/
def solve_equations (coefficients : Mat3 K) (rhs : Vec3 K) : Option (Vec3 K) :=
  (((gaussJordanStep 0 (coefficients, rhs)).bind (gaussJordanStep 1)).bind
      (gaussJordanStep 2)).bind
    (fun st => if ∀ i, st.1 i i = 1 then some st.2 else none)

/-- Explicit 3×3 determinant (expansion along the first row), used to state
nonsingularity of a concrete system. -/
def mat3Det (m : Mat3 K) : K :=
  m 0 0 * (m 1 1 * m 2 2 - m 1 2 * m 2 1)
    - m 0 1 * (m 1 0 * m 2 2 - m 1 2 * m 2 0)
    + m 0 2 * (m 1 0 * m 2 1 - m 1 1 * m 2 0)

/-- Explicit 3×3 matrix-vector product `A·x`. -/
def mat3MulVec (m : Mat3 K) (x : Vec3 K) : Vec3 K :=
  fun r => m r 0 * x 0 + m r 1 * x 1 + m r 2 * x 2

/-- `struct Triangle` from components.rs. -/
structure Triangle where
  a : Vec4
  b : Vec4
  c : Vec4
  normal : Vec4

/-- `Triangle::compute_ray_intersection` (components.rs lines 460-471). -/
noncomputable def Triangle.compute_ray_intersection (tri : Triangle) (ray : Ray) :
    Option ℝ :=
  let ab : Vec4 := tri.b - tri.a
  let ac : Vec4 := tri.c - tri.a
  let ao : Vec4 := ray.origin - tri.a
  (solve_equations
      ![![ab.x, ac.x, -ray.direction.x],
        ![ab.y, ac.y, -ray.direction.y],
        ![ab.z, ac.z, -ray.direction.z]]
      ![ao.x, ao.y, ao.z]).bind
    (fun sol => if sol 0 < 0 ∨ sol 1 < 0 ∨ sol 0 + sol 1 > 1 then none else some (sol 2))


/-- `EPS` from lib.rs. -/
def EPS : ℝ := 0.001

/-- `AIR_REFRACTION_INDEX` from lib.rs. -/
def AIR_REFRACTION_INDEX : ℝ := 1.0

/-- Model of `RangeInclusive<f64>`: the endpoints the renderer passes may be
`f64::INFINITY`, so they live in `EReal`. -/
structure TRange where
  lo : EReal
  hi : EReal

/-- `RangeInclusive::contains` for a finite (real) candidate. -/
def TRange.contains (r : TRange) (t : ℝ) : Prop :=
  r.lo ≤ (t : EReal) ∧ (t : EReal) ≤ r.hi

noncomputable instance (r : TRange) (t : ℝ) : Decidable (r.contains t) := by
  unfold TRange.contains
  infer_instance

/-- `RangeInclusive::contains` applied to a CSG break point, which the source
keeps as a plain `f64` that may be the `-f64::INFINITY` sentinel. -/
def TRange.containsE (r : TRange) (t : EReal) : Prop := r.lo ≤ t ∧ t ≤ r.hi

noncomputable instance (r : TRange) (t : EReal) : Decidable (r.containsE t) := by
  unfold TRange.containsE
  infer_instance

/-- `struct Material` from components.rs. -/
structure Material where
  color : Color ℝ
  specular : ℤ
  reflective : ℝ
  transparency : Option ℝ

/-- `struct HitTestResult` from objects.rs. -/
structure HitTestResult where
  t : ℝ
  point : Vec4
  normal : Vec4
  material : Material

/-- `impl SceneObject for SphereObject: hit_test` (objects.rs lines 22-37):
the first of the two roots lying in the range wins. -/
noncomputable def sphereHitTest (sphere : Sphere) (material : Material) (ray : Ray)
    (t_range : TRange) : Option HitTestResult :=
  match sphere.compute_ray_intersection ray with
  | none => none
  | some (t1, t2) =>
    let build : ℝ → HitTestResult := fun t =>
      let point : Vec4 := ray.origin + ray.direction * t
      let normal : Vec4 := point - sphere.center
      HitTestResult.mk t point (normal / normal.length) material
    if t_range.contains t1 then some (build t1)
    else if t_range.contains t2 then some (build t2)
    else none

/-- `enum BooleanOperation` from objects.rs. -/
inductive BooleanOperation where
  | UNION
  | INTERSECTION
  | SUBTRACTION

/-- The final loop of `BooleanOperationSpheresObject::hit_test` (objects.rs lines
130-150): the first break point inside the query range is returned, with the
normal flipped according to the parity of its position (`enumerate` index) and
the sign of `normal·direction`. On every reachable returning path the break
point is a real number (the range bounds used by the renderer are ≥ EPS), so
taking `EReal.toReal` for the stored `t` is faithful to the source. -/
noncomputable def csgFirstHit (material : Material) (ray : Ray) (t_range : TRange) :
    List (EReal × Sphere) → ℕ → Option HitTestResult
  | [], _ => none
  | b :: rest, i =>
    if t_range.containsE b.1 then
      let t := b.1.toReal
      let point : Vec4 := ray.origin + ray.direction * t
      let normal : Vec4 := point - b.2.center
      let f := normal.dot ray.direction
      let flip := if i % 2 = 1 then f < 0 else f > 0
      let normal := if flip then -normal else normal
      some (HitTestResult.mk t point (normal / normal.length) material)
    else csgFirstHit material ray t_range rest (i + 1)

/-- `impl SceneObject for BooleanOperationSpheresObject: hit_test` (objects.rs
lines 54-151). `unwrap_or((-f64::INFINITY, -f64::INFINITY))` becomes the bottom
element of `EReal`. -/
noncomputable def booleanHitTest (sphere_a : Sphere) (operation : BooleanOperation)
    (sphere_b : Sphere) (material : Material) (ray : Ray) (t_range : TRange) :
    Option HitTestResult :=
  let ta := sphere_a.compute_ray_intersection ray
  let tb := sphere_b.compute_ray_intersection ray
  if ta = none ∧ tb = none then none
  else
    let range_a : EReal × EReal := match ta with
      | some (x, y) => ((x : EReal), (y : EReal))
      | none => (⊥, ⊥)
    let range_b : EReal × EReal := match tb with
      | some (x, y) => ((x : EReal), (y : EReal))
      | none => (⊥, ⊥)
    let has_no_intersection := range_b.1 > range_a.2 ∨ range_a.1 > range_b.2
    let break_points : List (EReal × Sphere) := match operation with
      | .UNION =>
        if has_no_intersection then
          if range_b.1 > range_a.2 then
            [(range_a.1, sphere_a), (range_a.2, sphere_a),
             (range_b.1, sphere_b), (range_b.2, sphere_b)]
          else
            [(range_b.1, sphere_b), (range_b.2, sphere_b),
             (range_a.1, sphere_a), (range_a.2, sphere_a)]
        else
          [if range_a.1 < range_b.1 then (range_a.1, sphere_a) else (range_b.1, sphere_b),
           if range_a.2 < range_b.2 then (range_b.2, sphere_b) else (range_a.2, sphere_a)]
      | .INTERSECTION =>
        if has_no_intersection then []
        else
          [if range_a.1 < range_b.1 then (range_b.1, sphere_b) else (range_a.1, sphere_a),
           if range_a.2 < range_b.2 then (range_a.2, sphere_a) else (range_b.2, sphere_b)]
      | .SUBTRACTION =>
        if has_no_intersection then
          [(range_a.1, sphere_a), (range_a.2, sphere_a)]
        else if range_b.1 > range_a.1 then
          if range_b.2 ≥ range_a.2 then
            [(range_a.1, sphere_a), (range_b.1, sphere_b)]
          else
            [(range_a.1, sphere_a), (range_b.1, sphere_b),
             (range_b.2, sphere_a), (range_a.2, sphere_a)]
        else if range_b.2 < range_a.2 then
          [(range_b.2, sphere_b), (range_a.2, sphere_a)]
        else []
    csgFirstHit material ray t_range break_points 0

/-- The scan at the end of `PolyhedronObject::hit_test`: first sorted hit whose
`t` lies in the range. -/
noncomputable def firstHitInRange (ray : Ray) (material : Material) (t_range : TRange) :
    List (ℝ × Vec4) → Option HitTestResult
  | [] => none
  | hit :: rest =>
    if t_range.contains hit.1 then
      some (HitTestResult.mk hit.1 (ray.origin + ray.direction * hit.1) hit.2 material)
    else firstHitInRange ray material t_range rest

/-- `impl SceneObject for PolyhedronObject: hit_test` (objects.rs lines 160-177):
collect every triangle hit with its normal, sort ascending by `t`, and return
the first hit inside the range. -/
noncomputable def polyhedronHitTest (triangles : List Triangle) (material : Material)
    (ray : Ray) (t_range : TRange) : Option HitTestResult :=
  let hits := triangles.filterMap
    (fun triangle =>
      (triangle.compute_ray_intersection ray).map (fun t => (t, triangle.normal)))
  firstHitInRange ray material t_range (hits.mergeSort (fun a b => decide (a.1 ≤ b.1)))

/-- Closed sum of the `SceneObject` implementers of objects.rs
(`SphereObject`, `BooleanOperationSpheresObject`, `PolyhedronObject`). -/
inductive SceneObject where
  | sphereObject (sphere : Sphere) (material : Material)
  | booleanObject (sphere_a : Sphere) (operation : BooleanOperation) (sphere_b : Sphere)
      (material : Material)
  | polyhedronObject (triangles : List Triangle) (material : Material)

/-- Dispatch of `SceneObject::hit_test` over the three implementers. -/
noncomputable def SceneObject.hit_test (o : SceneObject) (ray : Ray) (t_range : TRange) :
    Option HitTestResult :=
  match o with
  | .sphereObject s m => sphereHitTest s m ray t_range
  | .booleanObject a op b m => booleanHitTest a op b m ray t_range
  | .polyhedronObject ts m => polyhedronHitTest ts m ray t_range

/-- Closed sum of the `LightObject` implementers of objects.rs
(`AmbientLight`, `PointLight`, `DirectionalLight`). -/
inductive Light where
  | ambient (intensity : ℝ)
  | point (intensity : ℝ) (position : Vec4)
  | directional (intensity : ℝ) (direction : Vec4)

/-- The fields of `struct Scene` (lib.rs) used by the ray-tracing path; the
camera, viewport and model fields play no part in the functions the claims are
about and are omitted. -/
structure Scene where
  background : Color ℝ
  objects : List SceneObject
  lights : List Light

/-- The loop body of `Scene::hit_test` (lib.rs lines 459-467): keep the result,
or replace it when the object hits at a smaller `t`. -/
noncomputable def hitTestStep (ray : Ray) (t_range : TRange)
    (result : Option HitTestResult) (object : SceneObject) : Option HitTestResult :=
  match object.hit_test ray t_range with
  | none => result
  | some r =>
    match result with
    | none => some r
    | some cur => if r.t < cur.t then some r else some cur

/-- `Scene::hit_test` (lib.rs lines 456-470): linear scan over the objects,
keeping the minimum-`t` hit. -/
noncomputable def Scene.hit_test (s : Scene) (ray : Ray) (t_range : TRange) :
    Option HitTestResult :=
  s.objects.foldl (hitTestStep ray t_range) none

/-- The loop body of `Scene::container_hit_test` (lib.rs lines 475-485): as
`hitTestStep`, but front-facing hits (`normal·direction ≤ 0`) are skipped. -/
noncomputable def containerHitTestStep (ray : Ray) (t_range : TRange)
    (result : Option HitTestResult) (object : SceneObject) : Option HitTestResult :=
  match object.hit_test ray t_range with
  | none => result
  | some r =>
    if r.normal.dot ray.direction ≤ 0 then result
    else
      match result with
      | none => some r
      | some cur => if r.t < cur.t then some r else some cur

/-- `Scene::container_hit_test` (lib.rs lines 472-489). -/
noncomputable def Scene.container_hit_test (s : Scene) (ray : Ray) (t_range : TRange) :
    Option HitTestResult :=
  s.objects.foldl (containerHitTestStep ray t_range) none

/-- `compute_light_factor` (objects.rs lines 184-190). -/
noncomputable def compute_light_factor (normal light view : Vec4) (specular : ℤ) : ℝ :=
  max (normal.cos light) 0 +
    if 0 ≤ specular then max ((normal.reflect light).cos view) 0 ^ specular.toNat else 0

/-- `LightObject::intensity_from` for the three light variants (objects.rs
lines 196-231). -/
noncomputable def Light.intensity_from (l : Light) (scene : Scene)
    (point normal view : Vec4) (specular : ℤ) : ℝ :=
  match l with
  | .ambient intensity => intensity
  | .point intensity position =>
    let light : Vec4 := position - point
    if (scene.hit_test (Ray.mk point light)
        (TRange.mk (EPS : EReal) ((1 : ℝ) : EReal))).isSome then 0
    else intensity * compute_light_factor normal light view specular
  | .directional intensity direction =>
    if (scene.hit_test (Ray.mk point direction)
        (TRange.mk (EPS : EReal) ⊤)).isSome then 0
    else intensity * compute_light_factor normal direction view specular

/-- `Scene::compute_lighting` (lib.rs lines 452-454). -/
noncomputable def Scene.compute_lighting (s : Scene) (point normal view : Vec4)
    (specular : ℤ) : ℝ :=
  (s.lights.map (fun light => light.intensity_from s point normal view specular)).sum

/-- `Scene::trace_ray` (lib.rs lines 491-533). The recursion is on `depth`,
exactly as in the source: both recursive calls sit under a `depth ≠ 0` guard and
pass `depth - 1`. The source's `if depth == 0 || hit.material.transparency.is_none()`
is rendered as a match on the transparency followed by the depth test — the same
result on every path, and it makes the `unwrap()` of the source total. -/
noncomputable def Scene.trace_ray (s : Scene) (ray : Ray) (refraction_index : ℝ)
    (t_range : TRange) (depth : ℕ) : Color ℝ :=
  match s.hit_test ray t_range with
  | none => s.background
  | some hit =>
    let local_color : Color ℝ :=
      hit.material.color *
        s.compute_lighting hit.point hit.normal (-ray.direction) hit.material.specular
    let opaque_color : Color ℝ :=
      if h1 : depth = 0 ∨ hit.material.reflective ≤ 0 then local_color
      else
        let reflected_ray : Ray := Ray.mk hit.point (hit.normal.reflect (-ray.direction))
        let reflected_color :=
          s.trace_ray reflected_ray 1 (TRange.mk (EPS : EReal) ⊤) (depth - 1)
        local_color * (1 - hit.material.reflective) + reflected_color * hit.material.reflective
    match hit.material.transparency with
    | none => opaque_color
    | some transparency =>
      if h2 : depth = 0 then opaque_color
      else
        let in_vector := ray.direction / ray.direction.length
        let going_outside_object := hit.normal.dot in_vector > 0
        let new_refraction_index :=
          if going_outside_object then
            ((s.container_hit_test (Ray.mk hit.point ray.direction)
                (TRange.mk (EPS : EReal) ⊤)).bind
              (fun container_hit => container_hit.material.transparency)).getD
              AIR_REFRACTION_INDEX
          else transparency
        let normal := if going_outside_object then -hit.normal else hit.normal
        let cosv := normal.dot in_vector
        let k := refraction_index / new_refraction_index
        let d := 1 - k * k * (1 - cosv * cosv)
        if d < 0 then opaque_color
        else
          let refraction_vector : Vec4 :=
            (in_vector - normal * cosv) * k - normal * Real.sqrt d
          let p := Real.sqrt |cosv|
          opaque_color * (1 - p) +
            s.trace_ray (Ray.mk hit.point refraction_vector) new_refraction_index
              (TRange.mk (EPS : EReal) ⊤) (depth - 1) * p
termination_by depth
decreasing_by
  · exact Nat.sub_lt (Nat.pos_of_ne_zero (fun h => h1 (Or.inl h))) Nat.one_pos
  · exact Nat.sub_lt (Nat.pos_of_ne_zero h2) Nat.one_pos


/-- `interpolate` from lib.rs (lines 12-19), over exact rationals. Rust's
`i0..=i1` iterator yields nothing when `i0 > i1`; `(i1 + 1 - i0).toNat`
reproduces that. -/
def interpolate (i0 : ℤ) (d0 : ℚ) (i1 : ℤ) (d1 : ℚ) : List ℚ :=
  if i0 = i1 then [d0]
  else
    let a : ℚ := (d1 - d0) / ((i1 - i0 : ℤ) : ℚ)
    (List.range (i1 + 1 - i0).toNat).map
      (fun (k : ℕ) => ((i0 + (k : ℤ) - i0 : ℤ) : ℚ) * a + d0)

/-- `ColorPack = (u8, u8, u8)` from components.rs. -/
abbrev ColorPack := ℕ × ℕ × ℕ

/-- Rust `f32::round` (round half away from zero), on exact rationals. -/
def rustRound (q : ℚ) : ℤ := if 0 ≤ q then ⌊q + 1 / 2⌋ else -⌊-q + 1 / 2⌋

/-- `clamp_color_component_f` from components.rs: round, clamp into [0,255],
cast to `u8`. -/
def clamp_color_component_f (value : ℚ) : ℕ := (max (min (rustRound value) 255) 0).toNat

/-- `Color::clamp` from components.rs. -/
def Color.clamp (c : Color ℚ) : ColorPack :=
  (clamp_color_component_f c.r, clamp_color_component_f c.g, clamp_color_component_f c.b)

/-- The fields of `struct Canvas` (lib.rs lines 21-26). -/
structure Canvas where
  width : ℕ
  height : ℕ
  image_data : List ColorPack
  depth_buffer : List ℚ
deriving DecidableEq

/-- `Canvas::index` without its assert (lib.rs lines 50-53); the assert is
modelled at the call site (`set_pixel` returns `none` on violation). -/
def Canvas.index (c : Canvas) (x y : ℕ) : ℕ := y * c.width + x

/-- `Canvas::set_pixel` (lib.rs lines 55-58). The `assert!` inside `index`
aborts the program on out-of-range coordinates; the abort is the `none` result. -/
def Canvas.set_pixel (c : Canvas) (x y : ℕ) (color : Color ℚ) : Option Canvas :=
  if x < c.width ∧ y < c.height then
    some { c with image_data := c.image_data.set (c.index x y) color.clamp }
  else none

/-- `Canvas::update_depth_buffer` (lib.rs lines 60-73). The depth-buffer read
is `getD _ 0`; under the canvas invariant (buffer length `width*height`) the
read is always in range, as in the source. Returns the flag and the canvas. -/
def Canvas.update_depth_buffer (c : Canvas) (x y : ℤ) (iz : ℚ) : Bool × Canvas :=
  let x := x + (c.width : ℤ) / 2
  let y := (c.height : ℤ) / 2 - y
  if x < 0 ∨ (c.width : ℤ) ≤ x ∨ y < 0 ∨ (c.height : ℤ) ≤ y then (false, c)
  else
    let index := c.index x.toNat y.toNat
    if c.depth_buffer.getD index 0 < iz then
      (true, { c with depth_buffer := c.depth_buffer.set index iz })
    else (false, c)

/-- `Canvas::put_pixel` (lib.rs lines 75-82): translate centered coordinates to
raster coordinates, silently clip when out of range, else hand over to
`set_pixel` (whose bound check cannot fire on this path). -/
def Canvas.put_pixel (c : Canvas) (x y : ℤ) (color : Color ℚ) : Canvas :=
  let x := x + (c.width : ℤ) / 2
  let y := (c.height : ℤ) / 2 - y
  if x < 0 ∨ (c.width : ℤ) ≤ x ∨ y < 0 ∨ (c.height : ℤ) ≤ y then c
  else
    match c.set_pixel x.toNat y.toNat color with
    | some c2 => c2
    | none => c

/-- The body of the per-pixel loop of `Canvas::draw_shaded_triangle` (lib.rs
lines 220-225): `if self.update_depth_buffer(x, y, iz) { self.put_pixel(x, y, color); }`. -/
def Canvas.shade_pixel (c : Canvas) (x y : ℤ) (iz : ℚ) (color : Color ℚ) : Canvas :=
  let r := c.update_depth_buffer x y iz
  if r.1 then r.2.put_pixel x y color else r.2


/-! ## Basic algebra lemmas -/

theorem Vec4.add_def (a b : Vec4) :
    a + b = ⟨a.x + b.x, a.y + b.y, a.z + b.z, a.w + b.w⟩ := rfl

theorem Vec4.sub_def (a b : Vec4) :
    a - b = ⟨a.x - b.x, a.y - b.y, a.z - b.z, a.w - b.w⟩ := rfl

theorem Vec4.neg_def (a : Vec4) : -a = ⟨-a.x, -a.y, -a.z, -a.w⟩ := rfl

theorem Vec4.smul_def (a : Vec4) (s : ℝ) : a * s = ⟨a.x * s, a.y * s, a.z * s, a.w * s⟩ := rfl

theorem Vec4.div_def (a : Vec4) (s : ℝ) : a / s = a * (1 / s) := rfl

theorem Vec4.dot_self_nonneg (v : Vec4) : 0 ≤ v.dot v := by
  unfold Vec4.dot
  nlinarith [mul_self_nonneg v.x, mul_self_nonneg v.y, mul_self_nonneg v.z, mul_self_nonneg v.w]

theorem Vec4.dot_sq_le (u v : Vec4) : u.dot v * u.dot v ≤ u.dot u * v.dot v := by
  unfold Vec4.dot
  nlinarith [sq_nonneg (u.x * v.y - u.y * v.x), sq_nonneg (u.x * v.z - u.z * v.x),
    sq_nonneg (u.x * v.w - u.w * v.x), sq_nonneg (u.y * v.z - u.z * v.y),
    sq_nonneg (u.y * v.w - u.w * v.y), sq_nonneg (u.z * v.w - u.w * v.z)]

/-! ## C1 -/

/-- C1: the system below arises in `Triangle::compute_ray_intersection` from the
triangle ((0,0,0),(0,0,1),(0,1,0)) and the ray with origin (1,2,3) and direction
(-1,0,0): its coefficient matrix is nonsingular (determinant -1) and (3,2,1)
solves it, yet `solve_equations` returns `none`: the unconditional `break` in the
pivot search only ever examines row `i+1`, so the nonzero pivot waiting in row 2
of column 0 is never swapped in. This exhibits the code bug refuting the claim
that every nonsingular system is solved. -/
theorem solve_equations_misses_recoverable_pivot :
    solve_equations (K := ℚ) ![![0, 0, 1], ![0, 1, 0], ![1, 0, 0]] ![1, 2, 3] = none ∧
      mat3Det (K := ℚ) ![![0, 0, 1], ![0, 1, 0], ![1, 0, 0]] ≠ 0 ∧
      mat3MulVec (K := ℚ) ![![0, 0, 1], ![0, 1, 0], ![1, 0, 0]] ![3, 2, 1] = ![1, 2, 3] := by
  refine ⟨by decide, by norm_num [mat3Det], ?_⟩
  funext r
  fin_cases r <;> norm_num [mat3MulVec]

/-! ## C9 -/

/-- C9: reflection about a normal is an involution: for every unit normal `n`
(`n·n = 1`, which holds for every normal the renderer constructs) and every
vector `l`, `n.reflect (n.reflect l) = l`. -/
theorem reflect_reflect (n l : Vec4) (h : n.dot n = 1) :
    n.reflect (n.reflect l) = l := by
  have key : n.dot (n.reflect l) = n.dot l := by
    unfold Vec4.reflect
    simp only [Vec4.dot, Vec4.smul_def, Vec4.sub_def] at h ⊢
    linear_combination (2 * (n.x * l.x + n.y * l.y + n.z * l.z + n.w * l.w)) * h
  rw [Vec4.reflect, key, Vec4.reflect]
  ext <;> simp [Vec4.smul_def, Vec4.sub_def]

/-- Witness for C9 at the unit normal (0,0,1,0) and the vector (3,-2,5,0). -/
theorem reflect_reflect_witness :
    Vec4.dot ⟨0, 0, 1, 0⟩ ⟨0, 0, 1, 0⟩ = 1 ∧
      Vec4.reflect ⟨0, 0, 1, 0⟩ (Vec4.reflect ⟨0, 0, 1, 0⟩ ⟨3, -2, 5, 0⟩) = ⟨3, -2, 5, 0⟩ :=
  ⟨by norm_num [Vec4.dot], reflect_reflect _ _ (by norm_num [Vec4.dot])⟩


/-! ## C7 -/

/-- C7 counterexample: for `i0 = 1 > i1 = 0` the claim demands `|i1-i0|+1 = 2`
interpolated values, but Rust's `i0..=i1` range is empty, so `interpolate`
returns no values at all. -/
theorem interpolate_reversed_counterexample :
    interpolate 1 5 0 7 = [] ∧ (interpolate 1 5 0 7).length ≠ (0 - 1 : ℤ).natAbs + 1 := by
  constructor <;> decide

/-- C7 (amended to `i0 ≤ i1`): `interpolate` yields one value for every integer
index from `i0` to `i1` inclusive (`i1 - i0 + 1` values), the k-th being the
linear interpolant `d0 + k·(d1 - d0)/(i1 - i0)`, and exactly `[d0]` when
`i0 = i1`. -/
theorem interpolate_spec (i0 i1 : ℤ) (d0 d1 : ℚ) (h : i0 ≤ i1) :
    (interpolate i0 d0 i1 d1).length = (i1 - i0).toNat + 1 ∧
      interpolate i0 d0 i1 d1 =
        (List.range ((i1 - i0).toNat + 1)).map
          (fun (k : ℕ) => d0 + (k : ℚ) * (d1 - d0) / ((i1 - i0 : ℤ) : ℚ)) ∧
      (i0 = i1 → interpolate i0 d0 i1 d1 = [d0]) := by
  have key : interpolate i0 d0 i1 d1 =
      (List.range ((i1 - i0).toNat + 1)).map
        (fun (k : ℕ) => d0 + (k : ℚ) * (d1 - d0) / ((i1 - i0 : ℤ) : ℚ)) := by
    by_cases he : i0 = i1
    · subst he
      simp [interpolate]
    · simp only [interpolate, if_neg he]
      have hn : (i1 + 1 - i0).toNat = (i1 - i0).toNat + 1 := by omega
      rw [hn]
      apply List.ext_getElem
      · simp only [List.length_map, List.length_range]
      · intro n h1 h2
        simp only [List.getElem_map, List.getElem_range]
        push_cast
        ring
  refine ⟨?_, key, fun hc => by simp [interpolate, hc]⟩
  rw [key]
  simp only [List.length_map, List.length_range]

/-- Witness for C7 at `i0 = 0 ≤ i1 = 2`. -/
theorem interpolate_spec_witness :
    (0 : ℤ) ≤ 2 ∧ (interpolate 0 1 2 5).length = (2 - 0 : ℤ).toNat + 1 :=
  ⟨by decide, (interpolate_spec 0 2 1 5 (by decide)).1⟩

/-! ## C8 -/

/-- C8: the depth-buffered per-pixel step of `draw_shaded_triangle` overwrites
the pixel and the depth-buffer entry only when the interpolated inverse depth
`iz` strictly exceeds the stored value at the translated index: the flag is
true exactly for an in-bounds pixel with `stored < iz`; a true flag replaces
exactly that depth entry; and a false flag leaves the whole canvas — depth
buffer and pixels — unchanged, including through the guarded `put_pixel`. -/
theorem update_depth_buffer_spec (c : Canvas) (x y : ℤ) (iz : ℚ) (color : Color ℚ) :
    ((c.update_depth_buffer x y iz).1 = true ↔
      (0 ≤ x + (c.width : ℤ) / 2 ∧ x + (c.width : ℤ) / 2 < (c.width : ℤ) ∧
          0 ≤ (c.height : ℤ) / 2 - y ∧ (c.height : ℤ) / 2 - y < (c.height : ℤ)) ∧
        c.depth_buffer.getD
          (c.index (x + (c.width : ℤ) / 2).toNat ((c.height : ℤ) / 2 - y).toNat) 0 < iz) ∧
    ((c.update_depth_buffer x y iz).1 = true →
      (c.update_depth_buffer x y iz).2 =
        Canvas.mk c.width c.height c.image_data
          (c.depth_buffer.set
            (c.index (x + (c.width : ℤ) / 2).toNat ((c.height : ℤ) / 2 - y).toNat) iz)) ∧
    ((c.update_depth_buffer x y iz).1 = false →
      (c.update_depth_buffer x y iz).2 = c ∧ c.shade_pixel x y iz color = c) := by
  by_cases h1 : x + (c.width : ℤ) / 2 < 0 ∨ (c.width : ℤ) ≤ x + (c.width : ℤ) / 2 ∨
      (c.height : ℤ) / 2 - y < 0 ∨ (c.height : ℤ) ≤ (c.height : ℤ) / 2 - y
  · have hu : c.update_depth_buffer x y iz = (false, c) := by
      simp only [Canvas.update_depth_buffer]
      rw [if_pos h1]
    refine ⟨?_, by rw [hu]; simp, fun _ => ⟨by rw [hu], ?_⟩⟩
    · rw [hu]
      constructor
      · intro hfa
        exact absurd hfa (by simp)
      · rintro ⟨hb, -⟩
        exfalso
        omega
    · simp only [Canvas.shade_pixel, hu]
      simp
  · by_cases h2 : c.depth_buffer.getD
        (c.index (x + (c.width : ℤ) / 2).toNat ((c.height : ℤ) / 2 - y).toNat) 0 < iz
    · have hu : c.update_depth_buffer x y iz =
          (true, Canvas.mk c.width c.height c.image_data
            (c.depth_buffer.set
              (c.index (x + (c.width : ℤ) / 2).toNat ((c.height : ℤ) / 2 - y).toNat) iz)) := by
        simp only [Canvas.update_depth_buffer]
        rw [if_neg h1, if_pos h2]
      refine ⟨?_, fun _ => by rw [hu], ?_⟩
      · rw [hu]
        simp only [true_iff]
        exact ⟨by omega, h2⟩
      · intro hfalse
        rw [hu] at hfalse
        simp at hfalse
    · have hu : c.update_depth_buffer x y iz = (false, c) := by
        simp only [Canvas.update_depth_buffer]
        rw [if_neg h1, if_neg h2]
      refine ⟨?_, by rw [hu]; simp, fun _ => ⟨by rw [hu], ?_⟩⟩
      · rw [hu]
        constructor
        · intro hfa
          exact absurd hfa (by simp)
        · rintro ⟨-, hlt⟩
          exact absurd hlt h2
      · simp only [Canvas.shade_pixel, hu]
        simp

/-- Witness for C8: on a 2×2 canvas with an all-zero depth buffer, writing
inverse depth 1 at centered pixel (0,0) passes the depth test. -/
theorem update_depth_buffer_spec_witness :
    ((Canvas.mk 2 2 [(0, 0, 0), (0, 0, 0), (0, 0, 0), (0, 0, 0)]
        [0, 0, 0, 0]).update_depth_buffer 0 0 1).1 = true :=
  (update_depth_buffer_spec
      (Canvas.mk 2 2 [(0, 0, 0), (0, 0, 0), (0, 0, 0), (0, 0, 0)] [0, 0, 0, 0])
      0 0 1 (Color.mk 0 0 0)).1.mpr (by decide)

/-! ## C10 -/

/-- C10: `Canvas::put_pixel` with centered coordinates whose raster translation
`(x + width/2, height/2 - y)` is out of bounds returns the canvas unchanged (a
silent clip, no abort), whereas `Canvas::set_pixel` on raw out-of-range
coordinates aborts (models `assert!` as `none`). -/
theorem put_pixel_clips_set_pixel_aborts (c : Canvas) (x y : ℤ) (color : Color ℚ) :
    ((x + (c.width : ℤ) / 2 < 0 ∨ (c.width : ℤ) ≤ x + (c.width : ℤ) / 2 ∨
        (c.height : ℤ) / 2 - y < 0 ∨ (c.height : ℤ) ≤ (c.height : ℤ) / 2 - y) →
      c.put_pixel x y color = c) ∧
    (∀ rx ry : ℕ, ¬(rx < c.width ∧ ry < c.height) → c.set_pixel rx ry color = none) := by
  constructor
  · intro h
    simp only [Canvas.put_pixel]
    rw [if_pos h]
  · intro rx ry h
    simp [Canvas.set_pixel, h]

/-- Witness for C10 on a 2×2 canvas: centered x = 5 translates to raster x = 6,
outside the canvas, so `put_pixel` is the identity; raw x = 9 makes `set_pixel`
abort. -/
theorem put_pixel_clips_witness :
    (Canvas.mk 2 2 [(0, 0, 0), (0, 0, 0), (0, 0, 0), (0, 0, 0)]
        [0, 0, 0, 0]).put_pixel 5 0 (Color.mk 1 2 3) =
      Canvas.mk 2 2 [(0, 0, 0), (0, 0, 0), (0, 0, 0), (0, 0, 0)] [0, 0, 0, 0] ∧
    (Canvas.mk 2 2 [(0, 0, 0), (0, 0, 0), (0, 0, 0), (0, 0, 0)]
        [0, 0, 0, 0]).set_pixel 9 0 (Color.mk 1 2 3) = none :=
  ⟨(put_pixel_clips_set_pixel_aborts _ 5 0 _).1 (by decide),
    (put_pixel_clips_set_pixel_aborts _ 5 0 _).2 9 0 (by decide)⟩


/-! ## C2 -/

theorem Vec4.dot_expand (u v : Vec4) (t : ℝ) :
    (u + v * t).dot (u + v * t) = v.dot v * t ^ 2 + 2 * u.dot v * t + u.dot u := by
  simp only [Vec4.dot, Vec4.add_def, Vec4.smul_def]
  ring

theorem compute_ray_intersection_eq (s : Sphere) (ray : Ray) :
    s.compute_ray_intersection ray =
      if s.discriminant ray < 0 then none
      else
        some ((-s.quadB ray - Real.sqrt (s.discriminant ray)) /
                (2 * ray.direction.dot ray.direction),
              (-s.quadB ray + Real.sqrt (s.discriminant ray)) /
                (2 * ray.direction.dot ray.direction)) := rfl

theorem quadratic_root_minus (a b c : ℝ) (ha : a ≠ 0) (hd : 0 ≤ b * b - 4 * a * c) :
    a * ((-b - Real.sqrt (b * b - 4 * a * c)) / (2 * a)) ^ 2 +
        b * ((-b - Real.sqrt (b * b - 4 * a * c)) / (2 * a)) + c = 0 := by
  have hs : Real.sqrt (b * b - 4 * a * c) * Real.sqrt (b * b - 4 * a * c) =
      b * b - 4 * a * c := Real.mul_self_sqrt hd
  field_simp
  linear_combination 2 * a ^ 2 * hs

theorem quadratic_root_plus (a b c : ℝ) (ha : a ≠ 0) (hd : 0 ≤ b * b - 4 * a * c) :
    a * ((-b + Real.sqrt (b * b - 4 * a * c)) / (2 * a)) ^ 2 +
        b * ((-b + Real.sqrt (b * b - 4 * a * c)) / (2 * a)) + c = 0 := by
  have hs : Real.sqrt (b * b - 4 * a * c) * Real.sqrt (b * b - 4 * a * c) =
      b * b - 4 * a * c := Real.mul_self_sqrt hd
  field_simp
  linear_combination 2 * a ^ 2 * hs

theorem quadratic_nonpos_between (a b c t : ℝ) (ha : 0 < a) (hd : 0 ≤ b * b - 4 * a * c)
    (h1 : (-b - Real.sqrt (b * b - 4 * a * c)) / (2 * a) ≤ t)
    (h2 : t ≤ (-b + Real.sqrt (b * b - 4 * a * c)) / (2 * a)) :
    a * t ^ 2 + b * t + c ≤ 0 := by
  have hs : Real.sqrt (b * b - 4 * a * c) * Real.sqrt (b * b - 4 * a * c) =
      b * b - 4 * a * c := Real.mul_self_sqrt hd
  have h2a : 0 < 2 * a := by linarith
  rw [div_le_iff₀ h2a] at h1
  rw [le_div_iff₀ h2a] at h2
  nlinarith [mul_nonneg (by linarith : (0 : ℝ) ≤ t * (2 * a) + b + Real.sqrt (b * b - 4 * a * c))
    (by linarith : (0 : ℝ) ≤ -b + Real.sqrt (b * b - 4 * a * c) - t * (2 * a)), hs, ha]

theorem ray_at_sub_center (s : Sphere) (ray : Ray) (t : ℝ) :
    ray.at t - s.center = (ray.origin - s.center) + ray.direction * t := by
  ext <;> simp [Ray.at, Vec4.add_def, Vec4.sub_def, Vec4.smul_def] <;> ring

/-- C2: for every ray with a nonzero direction (`D·D ≠ 0`, the degenerate rays
whose IEEE evaluation is NaN-valued being excluded), the sphere intersection
returns `none` exactly when the discriminant is negative, and a returned pair
`(t1, t2)` satisfies `t1 ≤ t2` with both parameters on the sphere's surface. -/
theorem sphere_intersection_spec (s : Sphere) (ray : Ray)
    (hD : ray.direction.dot ray.direction ≠ 0) :
    (s.compute_ray_intersection ray = none ↔ s.discriminant ray < 0) ∧
      ∀ t1 t2, s.compute_ray_intersection ray = some (t1, t2) →
        t1 ≤ t2 ∧ s.onSurface (ray.at t1) ∧ s.onSurface (ray.at t2) := by
  have ha : 0 < ray.direction.dot ray.direction :=
    lt_of_le_of_ne (Vec4.dot_self_nonneg _) (Ne.symm hD)
  rw [compute_ray_intersection_eq]
  constructor
  · split_ifs with hlt
    · simp [hlt]
    · simp [hlt]
  · intro t1 t2 ht
    split_ifs at ht with hlt
    · unfold Sphere.discriminant Sphere.quadB Sphere.quadC at hlt ht
      unfold Sphere.onSurface
      have hd : 0 ≤ 2 * (ray.origin - s.center).dot ray.direction *
          (2 * (ray.origin - s.center).dot ray.direction) -
          4 * ray.direction.dot ray.direction *
            ((ray.origin - s.center).dot (ray.origin - s.center) - s.radius * s.radius) :=
        not_lt.mp hlt
      simp only [Option.some.injEq, Prod.mk.injEq] at ht
      obtain ⟨ht1, ht2⟩ := ht
      subst ht1
      subst ht2
      have hroot1 := quadratic_root_minus _ _ _ (ne_of_gt ha) hd
      have hroot2 := quadratic_root_plus _ _ _ (ne_of_gt ha) hd
      refine ⟨?_, ?_, ?_⟩
      · have h2a : 0 < 2 * ray.direction.dot ray.direction := by linarith
        have hs := Real.sqrt_nonneg (2 * (ray.origin - s.center).dot ray.direction *
          (2 * (ray.origin - s.center).dot ray.direction) -
          4 * ray.direction.dot ray.direction *
            ((ray.origin - s.center).dot (ray.origin - s.center) - s.radius * s.radius))
        exact (div_le_div_iff_of_pos_right h2a).mpr (by linarith)
      · rw [ray_at_sub_center, Vec4.dot_expand]
        linear_combination hroot1
      · rw [ray_at_sub_center, Vec4.dot_expand]
        linear_combination hroot2


/-- C2 counterexample: for the degenerate ray with direction (0,0,0,0) and
origin (3,0,0,1) against the unit sphere at the origin, `a = b = 0` makes the
discriminant 0, so the code does not return `none`; the returned parameters are
(0,0) in the real-valued model (the quotient `0/0` — NaN in the IEEE run, where
the claimed `t1 ≤ t2` fails outright), and parameter 0 does not satisfy the
sphere's surface equation (the point is at distance 3, not 1). The claim is
false for this ray. -/
theorem sphere_intersection_zero_direction_counterexample :
    Sphere.compute_ray_intersection (Sphere.mk (Vec4.mk 0 0 0 1) 1)
        (Ray.mk (Vec4.mk 3 0 0 1) (Vec4.mk 0 0 0 0)) = some (0, 0) ∧
      ¬ Sphere.onSurface (Sphere.mk (Vec4.mk 0 0 0 1) 1)
          (Ray.at (Ray.mk (Vec4.mk 3 0 0 1) (Vec4.mk 0 0 0 0)) 0) := by
  constructor
  · rw [compute_ray_intersection_eq]
    norm_num [Sphere.discriminant, Sphere.quadB, Sphere.quadC, Vec4.dot, Vec4.sub_def]
  · norm_num [Sphere.onSurface, Ray.at, Vec4.dot, Vec4.sub_def, Vec4.add_def, Vec4.smul_def]

/-- Witness for C2: the z-axis ray from (0,0,-3) meets the unit sphere at the
origin at parameters 2 and 4, and the theorem applies to it. -/
theorem sphere_intersection_spec_witness :
    Vec4.dot (Vec4.mk 0 0 1 0) (Vec4.mk 0 0 1 0) ≠ 0 ∧
      Sphere.compute_ray_intersection (Sphere.mk (Vec4.mk 0 0 0 1) 1)
          (Ray.mk (Vec4.mk 0 0 (-3) 1) (Vec4.mk 0 0 1 0)) = some (2, 4) ∧
      ((2 : ℝ) ≤ 4 ∧
        Sphere.onSurface (Sphere.mk (Vec4.mk 0 0 0 1) 1)
          (Ray.at (Ray.mk (Vec4.mk 0 0 (-3) 1) (Vec4.mk 0 0 1 0)) 2) ∧
        Sphere.onSurface (Sphere.mk (Vec4.mk 0 0 0 1) 1)
          (Ray.at (Ray.mk (Vec4.mk 0 0 (-3) 1) (Vec4.mk 0 0 1 0)) 4)) := by
  have hD : Vec4.dot (Vec4.mk 0 0 1 0) (Vec4.mk 0 0 1 0) ≠ (0 : ℝ) := by
    norm_num [Vec4.dot]
  have h4 : Real.sqrt 4 = 2 := by
    rw [show (4 : ℝ) = 2 ^ 2 by norm_num]
    exact Real.sqrt_sq (by norm_num)
  have hsome : Sphere.compute_ray_intersection (Sphere.mk (Vec4.mk 0 0 0 1) 1)
      (Ray.mk (Vec4.mk 0 0 (-3) 1) (Vec4.mk 0 0 1 0)) = some (2, 4) := by
    rw [compute_ray_intersection_eq]
    norm_num [Sphere.discriminant, Sphere.quadB, Sphere.quadC, Vec4.dot, Vec4.sub_def, h4]
  exact ⟨hD, hsome, (sphere_intersection_spec _ _ hD).2 2 4 hsome⟩


/-! ## C4 and C6: the trace loop -/

theorem hitTestStep_none (ray : Ray) (t_range : TRange) (acc : Option HitTestResult)
    (o : SceneObject) (h : o.hit_test ray t_range = none) :
    hitTestStep ray t_range acc o = acc := by
  unfold hitTestStep
  rw [h]

theorem hitTestStep_isSome (ray : Ray) (t_range : TRange) (acc : Option HitTestResult)
    (o : SceneObject) (h : (o.hit_test ray t_range).isSome) :
    (hitTestStep ray t_range acc o).isSome := by
  unfold hitTestStep
  cases hh : o.hit_test ray t_range with
  | none => rw [hh] at h; simp at h
  | some r =>
    cases acc with
    | none => simp
    | some cur =>
      dsimp only
      split_ifs <;> simp

theorem hitTestStep_isSome_acc (ray : Ray) (t_range : TRange) (acc : Option HitTestResult)
    (o : SceneObject) (h : acc.isSome) : (hitTestStep ray t_range acc o).isSome := by
  unfold hitTestStep
  cases o.hit_test ray t_range with
  | none => exact h
  | some r =>
    cases acc with
    | none => simp
    | some cur =>
      dsimp only
      split_ifs <;> simp

theorem foldl_hitTestStep_isSome (ray : Ray) (t_range : TRange) (l : List SceneObject)
    (acc : Option HitTestResult) (h : acc.isSome) :
    (l.foldl (hitTestStep ray t_range) acc).isSome := by
  induction l generalizing acc with
  | nil => exact h
  | cons o tl ih =>
    rw [List.foldl_cons]
    exact ih _ (hitTestStep_isSome_acc ray t_range acc o h)

/-- The linear scan of `Scene::hit_test` misses nothing: if some listed object's
`hit_test` succeeds, the scene-level result is a hit. -/
theorem Scene.hit_test_isSome (s : Scene) (ray : Ray) (t_range : TRange)
    (o : SceneObject) (ho : o ∈ s.objects) (h : (o.hit_test ray t_range).isSome) :
    (s.hit_test ray t_range).isSome := by
  obtain ⟨l1, l2, hsplit⟩ := List.append_of_mem ho
  unfold Scene.hit_test
  rw [hsplit, List.foldl_append, List.foldl_cons]
  exact foldl_hitTestStep_isSome ray t_range l2 _
    (hitTestStep_isSome ray t_range _ o h)

/-- The linear scan of `Scene::hit_test` invents nothing: if no listed object's
`hit_test` succeeds, the scene-level result is `none`. -/
theorem Scene.hit_test_eq_none (s : Scene) (ray : Ray) (t_range : TRange)
    (h : ∀ o ∈ s.objects, o.hit_test ray t_range = none) :
    s.hit_test ray t_range = none := by
  unfold Scene.hit_test
  have aux : ∀ (l : List SceneObject), (∀ o ∈ l, o.hit_test ray t_range = none) →
      l.foldl (hitTestStep ray t_range) none = none := by
    intro l
    induction l with
    | nil => intro _; rfl
    | cons o tl ih =>
      intro hall
      rw [List.foldl_cons, hitTestStep_none ray t_range none o (hall o (by simp))]
      exact ih fun o ho => hall o (by simp [ho])
  exact aux s.objects h

/-- C4: `trace_ray` at depth 0 performs no recursive call and returns the pure
local shading — background on a miss, else `material.color * compute_lighting`,
regardless of the hit material's reflectivity or transparency. (Termination for
every depth is inherent in the definition: both recursive calls are guarded by
`depth ≠ 0` and pass `depth - 1`, the measure accepted by the termination
checker.) -/
theorem trace_ray_depth_zero (s : Scene) (ray : Ray) (refraction_index : ℝ)
    (t_range : TRange) :
    s.trace_ray ray refraction_index t_range 0 =
      match s.hit_test ray t_range with
      | none => s.background
      | some hit =>
        hit.material.color *
          s.compute_lighting hit.point hit.normal (-ray.direction) hit.material.specular := by
  rw [Scene.trace_ray]
  cases hh : s.hit_test ray t_range with
  | none => rfl
  | some hit =>
    cases htr : hit.material.transparency <;> simp [htr]

/-- C6: when no scene object's `hit_test` succeeds in the interval, `trace_ray`
returns exactly the scene's background color, at every depth — geometric
non-intersection propagates as an absent result to the background color. -/
theorem trace_ray_no_hit_background (s : Scene) (ray : Ray) (refraction_index : ℝ)
    (t_range : TRange) (depth : ℕ)
    (h : ∀ o ∈ s.objects, o.hit_test ray t_range = none) :
    s.trace_ray ray refraction_index t_range depth = s.background := by
  rw [Scene.trace_ray, Scene.hit_test_eq_none s ray t_range h]

/-- Witness for C6: an empty scene with background (7,8,9) traced at depth 5. -/
theorem trace_ray_no_hit_background_witness :
    Scene.trace_ray (Scene.mk (Color.mk 7 8 9) [] [])
        (Ray.mk (Vec4.mk 0 0 0 1) (Vec4.mk 0 0 1 0)) 1
        (TRange.mk ((1 : ℝ) : EReal) ⊤) 5 = Color.mk 7 8 9 :=
  trace_ray_no_hit_background _ _ _ _ _ (by simp)


/-! ## C5 -/

/-- C5 (amended: the shadow interval is closed at ε, `RangeInclusive` style):
for each of the two shadow-casting lights, an occluding object hit by the
shadow ray inside the code's interval — `[ε, 1]` for a point light, `[ε, ∞)`
for a directional light — forces a zero contribution, and with no occluder the
contribution is exactly `intensity * compute_light_factor`. -/
theorem light_shadow_spec (s : Scene) (point normal view : Vec4) (specular : ℤ)
    (intensity : ℝ) (position direction : Vec4) :
    ((∃ o ∈ s.objects, (o.hit_test (Ray.mk point (position - point))
          (TRange.mk (EPS : EReal) ((1 : ℝ) : EReal))).isSome) →
      (Light.point intensity position).intensity_from s point normal view specular = 0) ∧
    ((∀ o ∈ s.objects, o.hit_test (Ray.mk point (position - point))
          (TRange.mk (EPS : EReal) ((1 : ℝ) : EReal)) = none) →
      (Light.point intensity position).intensity_from s point normal view specular =
        intensity * compute_light_factor normal (position - point) view specular) ∧
    ((∃ o ∈ s.objects, (o.hit_test (Ray.mk point direction)
          (TRange.mk (EPS : EReal) ⊤)).isSome) →
      (Light.directional intensity direction).intensity_from s point normal view specular
        = 0) ∧
    ((∀ o ∈ s.objects, o.hit_test (Ray.mk point direction)
          (TRange.mk (EPS : EReal) ⊤) = none) →
      (Light.directional intensity direction).intensity_from s point normal view specular =
        intensity * compute_light_factor normal direction view specular) := by
  refine ⟨?_, ?_, ?_, ?_⟩
  · rintro ⟨o, ho, hsome⟩
    have hscene := Scene.hit_test_isSome s _ _ o ho hsome
    simp only [EReal.coe_one] at hscene
    simp [Light.intensity_from, hscene]
  · intro hall
    have hscene := Scene.hit_test_eq_none s _ _ hall
    simp only [EReal.coe_one] at hscene
    simp [Light.intensity_from, hscene]
  · rintro ⟨o, ho, hsome⟩
    have hscene := Scene.hit_test_isSome s _ _ o ho hsome
    simp [Light.intensity_from, hscene]
  · intro hall
    have hscene := Scene.hit_test_eq_none s _ _ hall
    simp [Light.intensity_from, hscene]

/-- C5 counterexample to the open-below interval `(ε, 1]` of the claim: a
radius-0 sphere tangent to the shadow ray exactly at parameter `t = ε`. No
point of the sphere's surface lies at any `t ∈ (ε, 1]`, so under the claim the
point light should contribute `intensity * factor = 1`; but the code's
`RangeInclusive` interval `[ε, 1]` contains `t = ε`, `hit_test` succeeds, and
`intensity_from` returns 0. -/
theorem point_light_epsilon_boundary_counterexample :
    (∀ t : ℝ, t ∈ Set.Ioc EPS 1 →
      ¬ Sphere.onSurface (Sphere.mk (Vec4.mk EPS 0 0 1) 0)
          (Ray.at (Ray.mk (Vec4.mk 0 0 0 1) (Vec4.mk 1 0 0 0)) t)) ∧
    (Light.point 1 (Vec4.mk 1 0 0 1)).intensity_from
        (Scene.mk (Color.mk 0 0 0)
          [SceneObject.sphereObject (Sphere.mk (Vec4.mk EPS 0 0 1) 0)
            (Material.mk (Color.mk 0 0 0) (-1) 0 none)] [])
        (Vec4.mk 0 0 0 1) (Vec4.mk 1 0 0 0) (Vec4.mk 0 1 0 0) (-1) = 0 ∧
    1 * compute_light_factor (Vec4.mk 1 0 0 0) (Vec4.mk 1 0 0 1 - Vec4.mk 0 0 0 1)
        (Vec4.mk 0 1 0 0) (-1) = 1 := by
  have hcri : Sphere.compute_ray_intersection (Sphere.mk (Vec4.mk EPS 0 0 1) 0)
      (Ray.mk (Vec4.mk 0 0 0 1) (Vec4.mk 1 0 0 0)) = some (EPS, EPS) := by
    rw [compute_ray_intersection_eq]
    norm_num [Sphere.discriminant, Sphere.quadB, Sphere.quadC, Vec4.dot, Vec4.sub_def, EPS]
  refine ⟨?_, ?_, ?_⟩
  · intro t ht hsurf
    obtain ⟨ht1, -⟩ := ht
    rw [Sphere.onSurface] at hsurf
    simp only [Ray.at, Vec4.add_def, Vec4.sub_def, Vec4.smul_def, Vec4.dot, EPS] at hsurf ht1
    nlinarith [hsurf, ht1]
  · have hcont : (TRange.mk (EPS : EReal) ((1 : ℝ) : EReal)).contains EPS := by
      constructor
      · exact le_refl _
      · rw [EReal.coe_le_coe_iff]
        norm_num [EPS]
    have hobj : ((SceneObject.sphereObject (Sphere.mk (Vec4.mk EPS 0 0 1) 0)
        (Material.mk (Color.mk 0 0 0) (-1) 0 none)).hit_test
          (Ray.mk (Vec4.mk 0 0 0 1) (Vec4.mk 1 0 0 0))
          (TRange.mk (EPS : EReal) ((1 : ℝ) : EReal))).isSome := by
      simp only [SceneObject.hit_test, sphereHitTest, hcri]
      rw [if_pos hcont]
      simp
    have hlight : Vec4.mk 1 0 0 1 - Vec4.mk 0 0 0 1 = Vec4.mk 1 0 0 0 := by
      simp [Vec4.sub_def]
    have hscene := Scene.hit_test_isSome
      (Scene.mk (Color.mk 0 0 0)
        [SceneObject.sphereObject (Sphere.mk (Vec4.mk EPS 0 0 1) 0)
          (Material.mk (Color.mk 0 0 0) (-1) 0 none)] [])
      (Ray.mk (Vec4.mk 0 0 0 1) (Vec4.mk 1 0 0 0))
      (TRange.mk (EPS : EReal) ((1 : ℝ) : EReal)) _ (by simp) hobj
    simp only [EReal.coe_one] at hscene
    simp [Light.intensity_from, hlight, hscene]
  · norm_num [compute_light_factor, Vec4.cos, Vec4.length, Vec4.dot, Vec4.sub_def,
      Real.sqrt_one]

/-- Witness for C5 (amended): with no objects at all, the point light
contributes exactly `intensity * compute_light_factor`. -/
theorem light_shadow_spec_witness :
    (Light.point 2 (Vec4.mk 5 0 0 1)).intensity_from (Scene.mk (Color.mk 0 0 0) [] [])
        (Vec4.mk 0 0 0 1) (Vec4.mk 1 0 0 0) (Vec4.mk 0 1 0 0) (-1) =
      2 * compute_light_factor (Vec4.mk 1 0 0 0) (Vec4.mk 5 0 0 1 - Vec4.mk 0 0 0 1)
        (Vec4.mk 0 1 0 0) (-1) :=
  (light_shadow_spec (Scene.mk (Color.mk 0 0 0) [] []) (Vec4.mk 0 0 0 1)
      (Vec4.mk 1 0 0 0) (Vec4.mk 0 1 0 0) (-1) 2 (Vec4.mk 5 0 0 1)
      (Vec4.mk 0 0 1 0)).2.1 (by simp)


/-! ## C3 -/

theorem sphere_some_le (s : Sphere) (ray : Ray) (t1 t2 : ℝ)
    (hD : ray.direction.dot ray.direction ≠ 0)
    (h : s.compute_ray_intersection ray = some (t1, t2)) : t1 ≤ t2 := by
  have ha : 0 < ray.direction.dot ray.direction :=
    lt_of_le_of_ne (Vec4.dot_self_nonneg _) (Ne.symm hD)
  rw [compute_ray_intersection_eq] at h
  split_ifs at h with hlt
  simp only [Option.some.injEq, Prod.mk.injEq] at h
  obtain ⟨ht1, ht2⟩ := h
  subst ht1
  subst ht2
  have h2a : 0 < 2 * ray.direction.dot ray.direction := by linarith
  have hs := Real.sqrt_nonneg (s.discriminant ray)
  exact (div_le_div_iff_of_pos_right h2a).mpr (by linarith)

theorem sphere_ball_of_between (s : Sphere) (ray : Ray) (t1 t2 t : ℝ)
    (hD : ray.direction.dot ray.direction ≠ 0)
    (h : s.compute_ray_intersection ray = some (t1, t2))
    (ht1 : t1 ≤ t) (ht2 : t ≤ t2) :
    (ray.at t - s.center).dot (ray.at t - s.center) ≤ s.radius * s.radius := by
  have ha : 0 < ray.direction.dot ray.direction :=
    lt_of_le_of_ne (Vec4.dot_self_nonneg _) (Ne.symm hD)
  rw [compute_ray_intersection_eq] at h
  split_ifs at h with hlt
  unfold Sphere.discriminant Sphere.quadB Sphere.quadC at hlt h
  have hd : 0 ≤ 2 * (ray.origin - s.center).dot ray.direction *
      (2 * (ray.origin - s.center).dot ray.direction) -
      4 * ray.direction.dot ray.direction *
        ((ray.origin - s.center).dot (ray.origin - s.center) - s.radius * s.radius) :=
    not_lt.mp hlt
  simp only [Option.some.injEq, Prod.mk.injEq] at h
  obtain ⟨ht1f, ht2f⟩ := h
  subst ht1f
  subst ht2f
  have hq := quadratic_nonpos_between (ray.direction.dot ray.direction)
    (2 * (ray.origin - s.center).dot ray.direction)
    ((ray.origin - s.center).dot (ray.origin - s.center) - s.radius * s.radius)
    t ha hd ht1 ht2
  rw [ray_at_sub_center, Vec4.dot_expand]
  linarith [hq]

theorem centers_close_of_common_point (A B : Sphere) (p : Vec4)
    (hA : (p - A.center).dot (p - A.center) ≤ A.radius * A.radius)
    (hB : (p - B.center).dot (p - B.center) ≤ B.radius * B.radius)
    (hra : 0 ≤ A.radius) (hrb : 0 ≤ B.radius) :
    (A.center - B.center).length ≤ A.radius + B.radius := by
  have hu := Vec4.dot_self_nonneg (p - A.center)
  have hw := Vec4.dot_self_nonneg (p - B.center)
  have hcs := Vec4.dot_sq_le (p - A.center) (p - B.center)
  have hsq : (A.center - B.center).dot (A.center - B.center) ≤
      (A.radius + B.radius) * (A.radius + B.radius) := by
    have hexp : (A.center - B.center).dot (A.center - B.center) =
        (p - B.center).dot (p - B.center) -
          2 * (p - A.center).dot (p - B.center) +
          (p - A.center).dot (p - A.center) := by
      simp only [Vec4.dot, Vec4.sub_def]
      ring
    rw [hexp]
    nlinarith [hcs, hA, hB, hu, hw, mul_nonneg hra hrb,
      sq_nonneg (A.radius * B.radius + (p - A.center).dot (p - B.center))]
  rw [Vec4.length]
  calc Real.sqrt ((A.center - B.center).dot (A.center - B.center))
      ≤ Real.sqrt ((A.radius + B.radius) * (A.radius + B.radius)) := Real.sqrt_le_sqrt hsq
    _ = A.radius + B.radius := by
        rw [show (A.radius + B.radius) * (A.radius + B.radius) =
          (A.radius + B.radius) ^ 2 by ring]
        exact Real.sqrt_sq (by linarith)

theorem booleanHitTest_inter_none_of_no_overlap (A B : Sphere) (mat : Material)
    (ray : Ray) (t_range : TRange)
    (h : A.compute_ray_intersection ray = none ∨ B.compute_ray_intersection ray = none ∨
      ∃ a0 a1 b0 b1, A.compute_ray_intersection ray = some (a0, a1) ∧
        B.compute_ray_intersection ray = some (b0, b1) ∧ (a1 < b0 ∨ b1 < a0)) :
    booleanHitTest A .INTERSECTION B mat ray t_range = none := by
  rcases h with hA | hB | ⟨a0, a1, b0, b1, hA, hB, hno⟩
  · cases hB : B.compute_ray_intersection ray with
    | none => simp [booleanHitTest, hA, hB, csgFirstHit]
    | some p =>
      obtain ⟨b0, b1⟩ := p
      simp [booleanHitTest, hA, hB, csgFirstHit]
  · cases hA : A.compute_ray_intersection ray with
    | none => simp [booleanHitTest, hA, hB, csgFirstHit]
    | some p =>
      obtain ⟨a0, a1⟩ := p
      simp [booleanHitTest, hA, hB, csgFirstHit]
  · have hno2 : ((b0 : EReal) > (a1 : EReal) ∨ (a0 : EReal) > (b1 : EReal)) := by
      rcases hno with h1 | h1
      · exact Or.inl (EReal.coe_lt_coe_iff.mpr h1)
      · exact Or.inr (EReal.coe_lt_coe_iff.mpr h1)
    simp only [booleanHitTest, hA, hB]
    rw [if_neg (by simp)]
    rw [if_pos hno2]
    simp [csgFirstHit]


/-- C3: the CSG INTERSECTION object reports no hit whenever the two spheres'
per-ray t-intervals do not overlap (including when either sphere misses the
ray entirely); and for disjoint spheres — center distance greater than the sum
of the (nonnegative) radii — it reports no hit for any ray with a nonzero
direction and any query interval. -/
theorem csg_intersection_spec (A B : Sphere) (mat : Material) :
    (∀ ray t_range,
      (A.compute_ray_intersection ray = none ∨ B.compute_ray_intersection ray = none ∨
        ∃ a0 a1 b0 b1, A.compute_ray_intersection ray = some (a0, a1) ∧
          B.compute_ray_intersection ray = some (b0, b1) ∧ (a1 < b0 ∨ b1 < a0)) →
      booleanHitTest A .INTERSECTION B mat ray t_range = none) ∧
    ((A.center - B.center).length > A.radius + B.radius → 0 ≤ A.radius → 0 ≤ B.radius →
      ∀ ray t_range, ray.direction.dot ray.direction ≠ 0 →
        booleanHitTest A .INTERSECTION B mat ray t_range = none) := by
  constructor
  · exact fun ray t_range h => booleanHitTest_inter_none_of_no_overlap A B mat ray t_range h
  · intro hdist hra hrb ray t_range hD
    apply booleanHitTest_inter_none_of_no_overlap
    cases hA : A.compute_ray_intersection ray with
    | none => exact Or.inl rfl
    | some pa =>
      cases hB : B.compute_ray_intersection ray with
      | none => exact Or.inr (Or.inl rfl)
      | some pb =>
        obtain ⟨a0, a1⟩ := pa
        obtain ⟨b0, b1⟩ := pb
        refine Or.inr (Or.inr ⟨a0, a1, b0, b1, rfl, rfl, ?_⟩)
        by_contra hcon
        push_neg at hcon
        obtain ⟨hba, hab⟩ := hcon
        have ha01 := sphere_some_le A ray a0 a1 hD hA
        have hb01 := sphere_some_le B ray b0 b1 hD hB
        have hmax1 : max a0 b0 ≤ a1 := max_le ha01 hba
        have hmax2 : max a0 b0 ≤ b1 := max_le hab hb01
        have hballA := sphere_ball_of_between A ray a0 a1 (max a0 b0) hD hA
          (le_max_left _ _) hmax1
        have hballB := sphere_ball_of_between B ray b0 b1 (max a0 b0) hD hB
          (le_max_right _ _) hmax2
        have hclose := centers_close_of_common_point A B (ray.at (max a0 b0))
          hballA hballB hra hrb
        linarith [hdist]

/-- Witness for C3: two disjoint unit spheres (centers 10 apart) and a concrete
x-axis ray. -/
theorem csg_intersection_spec_witness :
    ((Sphere.mk (Vec4.mk 0 0 0 1) 1).center -
        (Sphere.mk (Vec4.mk 10 0 0 1) 1).center).length >
      (Sphere.mk (Vec4.mk 0 0 0 1) 1).radius + (Sphere.mk (Vec4.mk 10 0 0 1) 1).radius ∧
    booleanHitTest (Sphere.mk (Vec4.mk 0 0 0 1) 1) .INTERSECTION
        (Sphere.mk (Vec4.mk 10 0 0 1) 1)
        (Material.mk (Color.mk 0 0 0) (-1) 0 none)
        (Ray.mk (Vec4.mk 0 0 (-5) 1) (Vec4.mk 1 0 0 0))
        (TRange.mk ((1 : ℝ) : EReal) ⊤) = none := by
  have hdot : ((Sphere.mk (Vec4.mk 0 0 0 1) 1).center -
      (Sphere.mk (Vec4.mk 10 0 0 1) 1).center).dot
      ((Sphere.mk (Vec4.mk 0 0 0 1) 1).center -
        (Sphere.mk (Vec4.mk 10 0 0 1) 1).center) = 100 := by
    norm_num [Vec4.dot, Vec4.sub_def]
  have hdist : ((Sphere.mk (Vec4.mk 0 0 0 1) 1).center -
      (Sphere.mk (Vec4.mk 10 0 0 1) 1).center).length >
      (Sphere.mk (Vec4.mk 0 0 0 1) 1).radius +
        (Sphere.mk (Vec4.mk 10 0 0 1) 1).radius := by
    rw [Vec4.length, hdot, show (100 : ℝ) = 10 ^ 2 by norm_num,
      Real.sqrt_sq (by norm_num : (0 : ℝ) ≤ 10)]
    norm_num
  exact ⟨hdist,
    (csg_intersection_spec (Sphere.mk (Vec4.mk 0 0 0 1) 1) (Sphere.mk (Vec4.mk 10 0 0 1) 1)
        (Material.mk (Color.mk 0 0 0) (-1) 0 none)).2 hdist (by norm_num) (by norm_num)
      (Ray.mk (Vec4.mk 0 0 (-5) 1) (Vec4.mk 1 0 0 0))
      (TRange.mk ((1 : ℝ) : EReal) ⊤) (by norm_num [Vec4.dot])⟩

end CGFS
